import Mathlib

/-!
# Verification of the CBOE VX futures processing core

A shallow embedding of the date rules, holiday calendar, business-day
arithmetic, monthly-contract back-adjustment, daily-settlement parsing and
the continuous-futures builder of `cboe.py` / `holiday.py`, together with
theorems settling the specification claims.

Dates are represented as natural-number day counts with epoch 0000-03-01
(the shifted-epoch civil-date algorithm), so that all calendrical
arithmetic is executable Nat arithmetic.  Prices are rationals; a missing
value (pandas `NaN`) is `Option.none`.
-/

set_option maxRecDepth 200000

namespace CboeVx

/-! ## Civil date arithmetic -/

/-- Gregorian leap-year test. -/
def isLeap (y : Nat) : Bool :=
  decide ((y % 4 = 0 ∧ ¬ y % 100 = 0) ∨ y % 400 = 0)

/-- Number of days of month `m` (1..12) of year `y`. -/
def daysInMonth (y : Nat) (m : Nat) : Nat :=
  match m with
  | 1 => 31
  | 2 => if isLeap y then 29 else 28
  | 3 => 31
  | 4 => 30
  | 5 => 31
  | 6 => 30
  | 7 => 31
  | 8 => 31
  | 9 => 30
  | 10 => 31
  | 11 => 30
  | 12 => 31
  | _ => 0

/-- Day number of the calendar date `y-m-d` counted from 0000-03-01
(shifted-epoch `days_from_civil`). -/
def dateToNum (y m d : Nat) : Nat :=
  let y' := if m ≤ 2 then y - 1 else y
  let era := y' / 400
  let yoe := y' % 400
  let mp := if 2 < m then m - 3 else m + 9
  let doy := (153 * mp + 2) / 5 + d - 1
  let doe := yoe * 365 + yoe / 4 - yoe / 100 + doy
  era * 146097 + doe

/-- Inverse of `dateToNum` (shifted-epoch `civil_from_days`): year, month, day. -/
def civilFromNum (n : Nat) : Nat × Nat × Nat :=
  let era := n / 146097
  let doe := n % 146097
  let yoe := (doe - doe / 1460 + doe / 36524 - doe / 146096) / 365
  let y := yoe + era * 400
  let doy := doe - (365 * yoe + yoe / 4 - yoe / 100)
  let mp := (5 * doy + 2) / 153
  let d := doy - (153 * mp + 2) / 5 + 1
  let m := if mp < 10 then mp + 3 else mp - 9
  (if m ≤ 2 then y + 1 else y, m, d)

/-- Calendar year containing day `n`. -/
def yearOf (n : Nat) : Nat := (civilFromNum n).1

/-- Python `date.weekday()`: Monday = 0, ..., Sunday = 6.
Day 0 (0000-03-01) falls on a Wednesday. -/
def pyWeekday (n : Nat) : Nat := (n + 2) % 7

/-! ## US market holiday calendar (`holiday.py`, `USMarketHolidayCalendar`) -/

/-- `pandas.tseries.holiday.nearest_workday`: Saturday observes on the
preceding Friday, Sunday on the following Monday. -/
def nearest_workday (n : Nat) : Nat :=
  if pyWeekday n = 5 then n - 1
  else if pyWeekday n = 6 then n + 1
  else n

/-- `k`-th weekday `wd` (python convention) of month `y-m`, counting a
month-initial match (`dateutil` relativedelta `weekday(wd, k)` from day 1). -/
def nthWeekdayOfMonth (y m wd k : Nat) : Nat :=
  let f := dateToNum y m 1
  f + (wd + 7 - pyWeekday f) % 7 + 7 * (k - 1)

/-- Last weekday `wd` on or before `y-m-d` (`relativedelta` `weekday(wd, -1)`). -/
def lastWeekdayOnOrBefore (y m d wd : Nat) : Nat :=
  let e := dateToNum y m d
  e - (pyWeekday e + 7 - wd) % 7

/-- Western Easter Sunday of year `y` (`dateutil.easter`, Gregorian method,
as used by the pandas `Easter` offset behind `GoodFriday`). -/
def easterNum (y : Nat) : Nat :=
  let g := y % 19
  let c := y / 100
  let h := (c - c / 4 - (8 * c + 13) / 25 + 19 * g + 15) % 30
  let i := h - (h / 28) * (1 - (h / 28) * (29 / (h + 1)) * ((21 - g) / 11))
  let j := (y + y / 4 + i + 2 - c + c / 4) % 7
  let p : Int := (i : Int) - (j : Int)
  let d : Int := 1 + (p + 27 + (p + 6) / 40) % 31
  let m : Int := 3 + (p + 26) / 30
  dateToNum y m.toNat d.toNat

/-- The observed holiday dates whose rule belongs to year `y`
(`USMarketHolidayCalendar.rules`).  The MLK rule only starts in 1986,
matching `pandas.tseries.holiday.USMartinLutherKingJr`. -/
def holidaysOfYear (y : Nat) : List Nat :=
  [nearest_workday (dateToNum y 1 1)] ++
  (if 1986 ≤ y then [nthWeekdayOfMonth y 1 0 3] else []) ++
  [nthWeekdayOfMonth y 2 0 3,
   easterNum y - 2,
   lastWeekdayOnOrBefore y 5 31 0,
   nearest_workday (dateToNum y 7 4),
   nthWeekdayOfMonth y 9 0 1,
   nthWeekdayOfMonth y 11 3 4,
   nearest_workday (dateToNum y 12 25)]

/-- Day `n` is an observed market holiday.  A rule of an adjacent year can
observe inside year `n` (New Year's Day observed on December 31), so the
rules of the neighbouring years are consulted as well. -/
def isHoliday (n : Nat) : Bool :=
  let y := yearOf n
  (holidaysOfYear (y - 1) ++ holidaysOfYear y ++ holidaysOfYear (y + 1)).contains n

/-- `cboe.is_business_day`: the day is neither a weekend day nor a holiday
of `USMarketHolidayCalendar` (membership in a `CDay`-frequency date range). -/
def is_business_day (n : Nat) : Bool :=
  decide (pyWeekday n < 5) && !(isHoliday n)

/-- Latest business day strictly before `n` (0 when none exists).  This is
`date - bday_us`, i.e. `np.busday_offset(date, -1, roll=forward)`: for any
date it yields the closest business day strictly in the past. -/
def prevBusinessDay : Nat → Nat
  | 0 => 0
  | n + 1 => if is_business_day n then n else prevBusinessDay n

/-! ## Business-day counting (`cboe.count_business_days`) -/

/-- Number of business days among `w` consecutive days starting at `s`. -/
def countBDfrom (s : Nat) : Nat → Nat
  | 0 => 0
  | w + 1 => (if is_business_day s then 1 else 0) + countBDfrom (s + 1) w

/-- `np.busday_count start end`: business days in `[start, end)`; negated
count of `[end, start)` when `end < start`. -/
def busday_count (s e : Nat) : Int :=
  if s ≤ e then (countBDfrom s (e - s) : Int)
  else -(countBDfrom e (s - e) : Int)

/-- Keep the entries of `xs` at the positions where `mask` is `true`
(numpy boolean-mask indexing `xs[mask]`). -/
def applyMask (xs : List (Option Nat)) (mask : List Bool) : List Nat :=
  (xs.zip mask).filterMap (fun p => if p.2 then p.1 else none)

/-- Scatter the compacted results back onto the full index: positions with
a `true` mask receive the next result, the others receive `NaN`. -/
def scatterCounts : List Bool → List Int → List (Option Int)
  | [], _ => []
  | true :: ms, c :: cs => some c :: scatterCounts ms cs
  | true :: _, [] => []
  | false :: ms, cs => none :: scatterCounts ms cs

/-- `cboe.count_business_days` on vectorized input: mask out the pairs with
a null endpoint, count business days on the compacted arrays, and scatter
the counts back with `NaN` at the masked-out positions. -/
def count_business_days (start ends : List (Option Nat)) : List (Option Int) :=
  let mask := List.zipWith (fun s e => s.isSome && e.isSome) start ends
  let starts := applyMask start mask
  let ends' := applyMask ends mask
  scatterCounts mask (List.zipWith busday_count starts ends')

/-! ## Expiration-date rule (`cboe.get_vx_expiration_date`) -/

/-- `monthyear + MonthEnd()` for a month-begin timestamp: the last calendar
day of month `y-m`. -/
def endOfMonth (y m : Nat) : Nat := dateToNum y m (daysInMonth y m)

/-- `d + 3*Week(weekday=4)` (pandas anchored `Week` offset): if `d` is a
Friday, three weeks later; otherwise the Friday after `d` plus two weeks.
`(4 + 7 - wd) % 7` is Python's `(4 - wd) % 7`. -/
def weekFri3 (d : Nat) : Nat :=
  let wd := pyWeekday d
  if wd = 4 then d + 21 else d + (4 + 7 - wd) % 7 + 14

/-- The unshifted settlement-date candidate: the third-Friday anchor minus
30 calendar days (`third_friday_of_mp1 - 30*Day()`). -/
def vx_candidate (y m : Nat) : Nat := weekFri3 (endOfMonth y m) - 30

/-- `cboe.get_vx_expiration_date` on the contract month `y-m`: thirty days
before the third-Friday anchor, shifted one business day back when either
that Friday or the candidate itself is not a business day. -/
def get_vx_expiration_date (y m : Nat) : Nat :=
  let mp1 := endOfMonth y m
  let third_friday_of_mp1 := weekFri3 mp1
  let expdate := third_friday_of_mp1 - 30
  if !(is_business_day third_friday_of_mp1 && is_business_day expdate)
  then prevBusinessDay expdate
  else expdate

/-- The month after `y-m`. -/
def monthAfter (y m : Nat) : Nat × Nat := if m = 12 then (y + 1, 1) else (y, m + 1)

/-- Third Friday of the calendar month `y-m`: the first Friday on or after
the 1st, plus two weeks.  Spec-side definition (claim C1's wording). -/
def thirdFridayOfMonth (y m : Nat) : Nat :=
  let f1 := dateToNum y m 1
  f1 + (4 + 7 - pyWeekday f1) % 7 + 14

/-- Expiration date as the specification words it: third Friday of the
month following `y-m`, minus 30 calendar days, shifted one business day
earlier exactly when that Friday or the candidate is not a business day. -/
def vx_expiration_date_spec (y m : Nat) : Nat :=
  let p := monthAfter y m
  let friday3 := thirdFridayOfMonth p.1 p.2
  let candidate := friday3 - 30
  if is_business_day candidate && is_business_day friday3 then candidate
  else prevBusinessDay candidate

/-! ## Monthly-contract fetch postprocessing (`cboe.fetch_vx_monthly_contract`) -/

/-- 2007-03-23, the `cboe_vx_adj_date` point-size cutover. -/
def cboe_vx_adj_date : Nat := dateToNum 2007 3 23

/-- A raw daily bar of a monthly contract (columns touched by the
back-adjustment; `trade` is the parsed `Trade Date`). -/
structure Bar where
  trade : Nat
  opn : ℚ
  high : ℚ
  low : ℚ
  close : ℚ
  settle : ℚ
  deriving DecidableEq, Repr

/-- `vx_contract[vx_contract['Trade Date'] < vx_expdate]`: discard entries
at expiration and beyond. -/
def filterBeforeExpiration (bars : List Bar) (expdate : Nat) : List Bar :=
  bars.filter (fun b => decide (b.trade < expdate))

/-- `.loc[trade < adj_date, 'Settle'] /= 10`. -/
def adjustSettle (bars : List Bar) : List Bar :=
  bars.map (fun b => if b.trade < cboe_vx_adj_date then { b with settle := b.settle / 10 } else b)

/-- `.loc[trade < adj_date, 'High'] /= 10`. -/
def adjustHigh (bars : List Bar) : List Bar :=
  bars.map (fun b => if b.trade < cboe_vx_adj_date then { b with high := b.high / 10 } else b)

/-- `.loc[trade < adj_date, 'Low'] /= 10`. -/
def adjustLow (bars : List Bar) : List Bar :=
  bars.map (fun b => if b.trade < cboe_vx_adj_date then { b with low := b.low / 10 } else b)

/-- `.loc[trade < adj_date, 'Open'] /= 10`. -/
def adjustOpen (bars : List Bar) : List Bar :=
  bars.map (fun b => if b.trade < cboe_vx_adj_date then { b with opn := b.opn / 10 } else b)

/-- `.loc[trade < adj_date, 'Close'] /= 10`. -/
def adjustClose (bars : List Bar) : List Bar :=
  bars.map (fun b => if b.trade < cboe_vx_adj_date then { b with close := b.close / 10 } else b)

/-- The post-download processing of `cboe.fetch_vx_monthly_contract`
(lines 334-342): drop bars at/after expiration, then apply the five
column-wise divide-by-10 adjustments in source order. -/
def fetch_vx_monthly_contract (bars : List Bar) (expdate : Nat) : List Bar :=
  adjustClose (adjustOpen (adjustLow (adjustHigh (adjustSettle
    (filterBeforeExpiration bars expdate)))))

/-- Spec-side back-adjustment of one bar: all five price fields become one
tenth of the raw value before the cutover, and stay untouched from the
cutover on. -/
def backAdjustedBar (b : Bar) : Bar :=
  if b.trade < cboe_vx_adj_date then
    { b with settle := b.settle / 10, high := b.high / 10, low := b.low / 10,
             opn := b.opn / 10, close := b.close / 10 }
  else b

/-! ## Daily-settlement snapshot (`cboe.fetch_vx_daily_settlement`) -/

/-- One row of the same-day settlement board CSV (`Product`, `Symbol`,
`Expiration Date` already parsed to a day number, `Price`). -/
structure BoardRow where
  product : String
  symbol : String
  expiration : Nat
  price : ℚ
  deriving DecidableEq, Repr

/-- `re.match('VX\/(.*)', symbol)` succeeds exactly when the symbol starts
with the three characters `VX/` (the anchored regex accepts any tail). -/
def isMonthlySymbol (s : String) : Bool :=
  s.data.take 3 == ['V', 'X', '/']

/-- The monthly VX rows of the board: product `VX`, symbol matching the
monthly pattern `re.match('VX\/(.*)', symbol)`. -/
def monthlyRows (board : List BoardRow) : List BoardRow :=
  (board.filter (fun r => r.product == "VX")).filter
    (fun r => isMonthlySymbol r.symbol)

/-- `cboe.fetch_vx_daily_settlement` given today's board and the last
posted historical date: select the monthly rows, grab the rows at
positions 0, 1, 3, 4, 5, 6 (front/back and months 4-7; an out-of-range
`iloc` raises, re-raised by the handler), then return the monthly rows
with the already-expired ones filtered out. -/
def fetch_vx_daily_settlement (board : List BoardRow) (last_posted_date : Nat) :
    Except Unit (List BoardRow) :=
  let monthly := monthlyRows board
  if monthly.length < 7 then Except.error ()
  else Except.ok (monthly.filter (fun r => decide (last_posted_date < r.expiration)))

/-! ## Continuous-series builder (`cboe.build_continuous_vx_dataframe`) -/

/-- One row of the merged contract dataframe produced by
`fetch_vx_contracts`: trading day, the contract's expiration date and its
settlement price.  Rows appear contract by contract, each contract's rows
in trading-day order. -/
structure ContractRow where
  tradeDate : Nat
  expirationDate : Nat
  settle : ℚ
  deriving DecidableEq, Repr

/-- `Index.unique()`: the distinct values in order of first appearance. -/
def uniqueFirst : List Nat → List Nat :=
  go []
where
  /-- Worklist recursion carrying the set of already-seen values. -/
  go : List Nat → List Nat → List Nat
  | _, [] => []
  | seen, d :: rest =>
    if d ∈ seen then go seen rest else d :: go (d :: seen) rest

/-- Insert into an ascending list, keeping it ascending. -/
def insertAsc (x : Nat) : List Nat → List Nat
  | [] => [x]
  | y :: ys => if x ≤ y then x :: y :: ys else y :: insertAsc x ys

/-- Sort ascending (groupby keys are returned sorted). -/
def sortAsc (l : List Nat) : List Nat := l.foldr insertAsc []

/-- The unique trading days of the contract dataframe, in order of first
appearance (`vx_contract_df.index.unique()`). -/
def timeframe (df : List ContractRow) : List Nat :=
  uniqueFirst (df.map (·.tradeDate))

/-- `vx_td_gb.nth(k)` at trading day `d`: the `k`-th row (original order)
among the rows of day `d`. -/
def groupNth (df : List ContractRow) (d k : Nat) : Option ContractRow :=
  (df.filter (fun r => decide (r.tradeDate = d))).get? k

/-- The month and year preceding the month of day `e`
(`e - MonthEnd() - MonthBegin()` for a mid-month `e`). -/
def prevMonthOf (e : Nat) : Nat × Nat :=
  let c := civilFromNum e
  if c.2.1 = 1 then (c.1 - 1, 12) else (c.1, c.2.1 - 1)

/-- The expiration-date series `vx_expdate_s` actually used by the builder:
the sorted unique expiration dates of the dataframe, prepended with the
synthesized prior-month expiration when the timeframe starts before the
first known expiration. -/
def expdatesUsed (df : List ContractRow) : List Nat :=
  let es := sortAsc (uniqueFirst (df.map (·.expirationDate)))
  match timeframe df, es with
  | d0 :: _, e0 :: _ =>
    if d0 < e0 then
      (let p := prevMonthOf e0; get_vx_expiration_date p.1 p.2) :: es
    else es
  | _, _ => es

/-- The prior-month expiration `vx_pm_s[d]`: the last entry of the
expiration series that is at or before `d`, if any. -/
def vx_pm (df : List ContractRow) (d : Nat) : Option Nat :=
  ((expdatesUsed df).filter (fun e => decide (e ≤ d))).getLast?

/-- NaN-propagating binary operation on possibly-missing values. -/
def omap2 (f : α → β → γ) : Option α → Option β → Option γ
  | some a, some b => some (f a b)
  | _, _ => none

/-- One row of the continuous dataframe, with every derived column of the
builder; a `none` is a pandas `NaN`. -/
structure ContRow where
  tradeDate : Nat
  month0Exp : Nat
  month1Exp : Option Nat
  month1Settle : Option ℚ
  month2Settle : Option ℚ
  month4Settle : Option ℚ
  month5Settle : Option ℚ
  month6Settle : Option ℚ
  month7Settle : Option ℚ
  rollPeriod : Option Int
  daysTillRollover : Option Int
  stW1 : Option ℚ
  stW2 : Option ℚ
  mtW4 : Option ℚ
  mtW7 : Option ℚ
  STCMVF : Option ℚ
  MTCMVF : Option ℚ
  deriving DecidableEq, Repr

/-- The continuous row of trading day `d` with prior-month expiration `m0`:
months 1,2,4,5,6,7 are the rows at positions 0,1,3,4,5,6 of day `d`'s
group, roll period counts business days from `m0` to the front-month
expiration, days-till-rollover counts from `d` minus one, and the
constant-maturity values combine the settles with the roll weights. -/
def mkRow (df : List ContractRow) (d m0 : Nat) : ContRow :=
  let r1 := groupNth df d 0
  let r2 := groupNth df d 1
  let r4 := groupNth df d 3
  let r5 := groupNth df d 4
  let r6 := groupNth df d 5
  let r7 := groupNth df d 6
  let m1exp := r1.map (·.expirationDate)
  let rollPeriod := m1exp.map (fun e => busday_count m0 e)
  let daysTillRollover := m1exp.map (fun e => busday_count d e - 1)
  let w1 := omap2 (fun (a b : Int) => (a : ℚ) / (b : ℚ)) daysTillRollover rollPeriod
  let w2 := w1.map (fun x => 1 - x)
  let w4 := w1.map (fun x => x / 3)
  let w7 := w4.map (fun x => 1 / 3 - x)
  { tradeDate := d
    month0Exp := m0
    month1Exp := m1exp
    month1Settle := r1.map (·.settle)
    month2Settle := r2.map (·.settle)
    month4Settle := r4.map (·.settle)
    month5Settle := r5.map (·.settle)
    month6Settle := r6.map (·.settle)
    month7Settle := r7.map (·.settle)
    rollPeriod := rollPeriod
    daysTillRollover := daysTillRollover
    stW1 := w1
    stW2 := w2
    mtW4 := w4
    mtW7 := w7
    STCMVF := omap2 (· + ·)
      (omap2 (· * ·) w1 (r1.map (·.settle)))
      (omap2 (· * ·) w2 (r2.map (·.settle)))
    MTCMVF := omap2 (· + ·)
      (omap2 (· + ·)
        (omap2 (· + ·)
          (omap2 (· * ·) w4 (r4.map (·.settle)))
          ((r5.map (·.settle)).map (fun s => 1 / 3 * s)))
        ((r6.map (·.settle)).map (fun s => 1 / 3 * s)))
      (omap2 (· * ·) w7 (r7.map (·.settle))) }

/-- `cboe.build_continuous_vx_dataframe`: one row per trading day of the
timeframe that has a resolvable prior-month expiration; the days without
one are dropped (`vx_pm_s.dropna()`). -/
def build_continuous_vx_dataframe (df : List ContractRow) : List ContRow :=
  (timeframe df).filterMap (fun d =>
    match vx_pm df d with
    | none => none
    | some m0 => some (mkRow df d m0))

/-! ## Contract chains (`fetch_vx_contracts` input shape for claim C3) -/

/-- A monthly contract: its expiration date and its daily bars
(trading day, settle). -/
structure Contract where
  expiration : Nat
  bars : List (Nat × ℚ)
  deriving DecidableEq, Repr

/-- Concatenate a chain of monthly contracts into the merged dataframe, in
chain order (what `pd.concat` of the monthly fetches produces). -/
def chainToDf (chain : List Contract) : List ContractRow :=
  chain.flatMap (fun c => c.bars.map (fun b => ⟨b.1, c.expiration, b.2⟩))

/-- The nearest forward expiration of the chain at day `d`, as the claim
words it: the smallest expiration strictly greater than `d`. -/
def nearestForwardExp (chain : List Contract) (d : Nat) : Option Nat :=
  ((chain.map (·.expiration)).filter (fun e => decide (d < e))).min?

/-! ## Concrete inputs used by the witnesses -/

/-- The published 2016-01-15 snapshot of the nine Jan-Sep 2016 contracts
(settles from the `fetch_vx_contracts` docstring). -/
def exDf16 : List ContractRow :=
  [⟨dateToNum 2016 1 15, dateToNum 2016 1 20, 26.475⟩,
   ⟨dateToNum 2016 1 15, dateToNum 2016 2 17, 24.350⟩,
   ⟨dateToNum 2016 1 15, dateToNum 2016 3 16, 23.650⟩,
   ⟨dateToNum 2016 1 15, dateToNum 2016 4 20, 23.350⟩,
   ⟨dateToNum 2016 1 15, dateToNum 2016 5 18, 23.075⟩,
   ⟨dateToNum 2016 1 15, dateToNum 2016 6 15, 23.025⟩,
   ⟨dateToNum 2016 1 15, dateToNum 2016 7 20, 23.125⟩,
   ⟨dateToNum 2016 1 15, dateToNum 2016 8 17, 22.975⟩,
   ⟨dateToNum 2016 1 15, dateToNum 2016 9 21, 23.200⟩]

/-- A settlement board carrying only two monthly rows (front and back
month) plus a weekly row, as on a day when only the near contracts are
listed. -/
def exBoard2 : List BoardRow :=
  [⟨"VX", "VX/F6", dateToNum 2016 1 20, 25.85⟩,
   ⟨"VX", "VX01/F6", dateToNum 2016 1 6, 25.0⟩,
   ⟨"VX", "VX/G6", dateToNum 2016 2 17, 24.025⟩]

/-- A settlement board with seven monthly rows (and one weekly row), the
shape the parser actually requires. -/
def exBoard7 : List BoardRow :=
  [⟨"VX", "VX/F6", dateToNum 2016 1 20, 25.85⟩,
   ⟨"VX", "VX01/F6", dateToNum 2016 1 6, 25.0⟩,
   ⟨"VX", "VX/G6", dateToNum 2016 2 17, 24.025⟩,
   ⟨"VX", "VX/H6", dateToNum 2016 3 16, 23.40⟩,
   ⟨"VX", "VX/J6", dateToNum 2016 4 20, 23.125⟩,
   ⟨"VX", "VX/K6", dateToNum 2016 5 18, 22.95⟩,
   ⟨"VX", "VX/M6", dateToNum 2016 6 15, 22.825⟩,
   ⟨"VX", "VX/N6", dateToNum 2016 7 20, 22.95⟩]

/-- Contracts F, G, H of 2016 with bars on 2016-01-15 and 2016-01-20: on
January 20 (the F expiration day itself) the F contract has already rolled
off, so `days_till_rollover = roll_period - 1` on that row. -/
def exDfC9 : List ContractRow :=
  [⟨dateToNum 2016 1 15, dateToNum 2016 1 20, 26.475⟩,
   ⟨dateToNum 2016 1 15, dateToNum 2016 2 17, 24.350⟩,
   ⟨dateToNum 2016 1 20, dateToNum 2016 2 17, 24.725⟩,
   ⟨dateToNum 2016 1 15, dateToNum 2016 3 16, 23.650⟩,
   ⟨dateToNum 2016 1 20, dateToNum 2016 3 16, 23.925⟩]

/-- Contracts F and G of 2016 with bars on 2016-01-19, the last trading
day before the F expiration. -/
def exDfLastDay : List ContractRow :=
  [⟨dateToNum 2016 1 19, dateToNum 2016 1 20, 25.85⟩,
   ⟨dateToNum 2016 1 19, dateToNum 2016 2 17, 24.025⟩]

/-- A default row used only as the fall-back of `List.headD` in witnesses. -/
def dummyRow : ContRow := mkRow [] 0 0

/-- A two-contract chain (F and G of 2016) with bars on 2016-01-15 and
2016-01-19: sorted by expiration, all bars before expiration, and both
contracts quoted on both days. -/
def exChain : List Contract :=
  [⟨dateToNum 2016 1 20,
    [(dateToNum 2016 1 15, 26.475), (dateToNum 2016 1 19, 25.85)]⟩,
   ⟨dateToNum 2016 2 17,
    [(dateToNum 2016 1 15, 24.350), (dateToNum 2016 1 19, 24.025)]⟩]

end CboeVx

namespace CboeVx

/-! ## Supporting lemmas -/

theorem countBDfrom_add (a : Nat) : ∀ (s : Nat) (b : Nat),
    countBDfrom s (a + b) = countBDfrom s a + countBDfrom (s + a) b := by
  induction a with
  | zero => intro s b; simp [countBDfrom]
  | succ a ih =>
    intro s b
    have h1 : a + 1 + b = (a + b) + 1 := by omega
    rw [h1, countBDfrom, countBDfrom, ih (s + 1) b]
    have h2 : s + 1 + a = s + (a + 1) := by omega
    rw [h2]
    omega

theorem countBDfrom_pos (s : Nat) (w : Nat) (hw : 0 < w)
    (hs : is_business_day s = true) : 0 < countBDfrom s w := by
  cases w with
  | zero => omega
  | succ w => simp [countBDfrom, hs]

set_option maxHeartbeats 1000000 in
theorem succ_endOfMonth (y m : Nat) (hy : 1 ≤ y) (hm1 : 1 ≤ m) (hm2 : m ≤ 12) :
    endOfMonth y m + 1 = dateToNum (monthAfter y m).1 (monthAfter y m).2 1 := by
  interval_cases m <;>
    simp only [endOfMonth, daysInMonth, dateToNum, monthAfter, isLeap] <;>
    split_ifs <;>
    (try simp only [decide_eq_true_eq] at *) <;>
    omega

theorem weekFri3_via_succ (d : Nat) :
    weekFri3 d = (d + 1) + (4 + 7 - pyWeekday (d + 1)) % 7 + 14 := by
  simp only [weekFri3, pyWeekday]
  split_ifs <;> omega

/-- The third-Friday anchor computed by the source (`MonthEnd` of the
contract month, then `3*Week(weekday=4)`) is the third Friday of the
following calendar month. -/
theorem weekFri3_endOfMonth (y m : Nat) (hy : 1 ≤ y) (hm1 : 1 ≤ m) (hm2 : m ≤ 12) :
    weekFri3 (endOfMonth y m) =
      thirdFridayOfMonth (monthAfter y m).1 (monthAfter y m).2 := by
  rw [weekFri3_via_succ, succ_endOfMonth y m hy hm1 hm2]
  rfl

/-! ## C1: the expiration-date rule matches its specification -/

/-- C1.  For every well-formed month/year, `get_vx_expiration_date`
returns exactly what the specification describes: the third Friday of the
following calendar month minus 30 calendar days, shifted one business day
earlier precisely when that candidate or that Friday is not a business
day, and unchanged otherwise. -/
theorem get_vx_expiration_date_refines_spec (y m : Nat)
    (hy : 1 ≤ y) (hm1 : 1 ≤ m) (hm2 : m ≤ 12) :
    get_vx_expiration_date y m = vx_expiration_date_spec y m := by
  simp only [get_vx_expiration_date, vx_expiration_date_spec]
  rw [weekFri3_endOfMonth y m hy hm1 hm2]
  rcases hf : is_business_day (thirdFridayOfMonth (monthAfter y m).1 (monthAfter y m).2) <;>
    rcases hc : is_business_day (thirdFridayOfMonth (monthAfter y m).1 (monthAfter y m).2 - 30) <;>
    simp [hf, hc]

/-- Witness for C1 at the March 2014 contract, whose third-Friday anchor
(2014-04-18) is Good Friday, forcing the one-business-day shift: both
sides evaluate to 2014-03-18. -/
theorem get_vx_expiration_date_refines_spec_witness :
    get_vx_expiration_date 2014 3 = vx_expiration_date_spec 2014 3 ∧
      get_vx_expiration_date 2014 3 = dateToNum 2014 3 18 :=
  ⟨get_vx_expiration_date_refines_spec 2014 3 (by decide) (by decide) (by decide),
   by decide⟩

/-! ## C10: the expiration date is always a business day -/

theorem prevBusinessDay_is_business (d : Nat)
    (h : ∃ b, b < d ∧ is_business_day b = true) :
    is_business_day (prevBusinessDay d) = true := by
  induction d with
  | zero => obtain ⟨b, hb, -⟩ := h; omega
  | succ n ih =>
    unfold prevBusinessDay
    by_cases hn : is_business_day n = true
    · simp [hn]
    · obtain ⟨b, hb, hbb⟩ := h
      have hbn : b < n := by
        rcases Nat.lt_succ_iff_lt_or_eq.mp hb with h' | rfl
        · exact h'
        · exact absurd hbb hn
      simp only [Bool.not_eq_true] at hn
      simp only [hn, Bool.false_eq_true, if_false]
      exact ih ⟨b, hbn, hbb⟩

/-- C10.  Whenever any business day exists before the unshifted candidate,
the date returned by `get_vx_expiration_date` is a business day: the
unshifted branch returns a candidate the branch condition has checked, and
the shifted branch returns the nearest business day strictly before the
candidate. -/
theorem get_vx_expiration_date_is_business_day (y m : Nat)
    (h : ∃ b, b < vx_candidate y m ∧ is_business_day b = true) :
    is_business_day (get_vx_expiration_date y m) = true := by
  unfold get_vx_expiration_date
  rcases hf : is_business_day (weekFri3 (endOfMonth y m)) <;>
    rcases hc : is_business_day (weekFri3 (endOfMonth y m) - 30) <;>
    simp [hf, hc] <;>
    exact prevBusinessDay_is_business _ h

/-- Witness for C10 at the shifted March 2014 contract: 2014-03-17 is a
business day preceding the candidate 2014-03-19, and the result
2014-03-18 is a business day. -/
theorem get_vx_expiration_date_is_business_day_witness :
    is_business_day (get_vx_expiration_date 2014 3) = true :=
  get_vx_expiration_date_is_business_day 2014 3
    ⟨dateToNum 2014 3 17, by decide, by decide⟩

/-! ## C5: historical back-adjustment -/

/-- C5.  The bars returned by `fetch_vx_monthly_contract` are exactly the
raw bars before the expiration date, with settle/open/high/low/close all
divided by exactly 10 for bars dated before 2007-03-23 and untouched from
that date on. -/
theorem fetch_vx_monthly_contract_back_adjusts (bars : List Bar) (expdate : Nat) :
    fetch_vx_monthly_contract bars expdate =
      (filterBeforeExpiration bars expdate).map backAdjustedBar := by
  unfold fetch_vx_monthly_contract adjustClose adjustOpen adjustLow adjustHigh adjustSettle
  simp only [List.map_map]
  congr 1
  funext b
  by_cases h : b.trade < cboe_vx_adj_date <;>
    simp [Function.comp, backAdjustedBar, h]

/-! ## C6: business-day count identity and additivity -/

/-- C6.  `busday_count` counts start-inclusive, end-exclusive: the count
from a date to itself is `0`, and for `d1 ≤ d2 ≤ d3` the counts over
`[d1,d2)` and `[d2,d3)` add up to the count over `[d1,d3)`. -/
theorem busday_count_zero_and_additive (d d1 d2 d3 : Nat)
    (h12 : d1 ≤ d2) (h23 : d2 ≤ d3) :
    busday_count d d = 0 ∧
      busday_count d1 d3 = busday_count d1 d2 + busday_count d2 d3 := by
  constructor
  · simp [busday_count, countBDfrom]
  · unfold busday_count
    rw [if_pos (le_trans h12 h23), if_pos h12, if_pos h23]
    have hsplit : d3 - d1 = (d2 - d1) + (d3 - d2) := by omega
    rw [hsplit, countBDfrom_add]
    have hmid : d1 + (d2 - d1) = d2 := by omega
    rw [hmid]
    push_cast
    ring

/-- Witness for C6 at 2024-03-11 ≤ 2024-03-13 ≤ 2024-03-15. -/
theorem busday_count_zero_and_additive_witness :
    busday_count (dateToNum 2024 3 11) (dateToNum 2024 3 11) = 0 ∧
      busday_count (dateToNum 2024 3 11) (dateToNum 2024 3 15) =
        busday_count (dateToNum 2024 3 11) (dateToNum 2024 3 13) +
          busday_count (dateToNum 2024 3 13) (dateToNum 2024 3 15) :=
  busday_count_zero_and_additive (dateToNum 2024 3 11) (dateToNum 2024 3 11)
    (dateToNum 2024 3 13) (dateToNum 2024 3 15) (by decide) (by decide)

/-! ## C7: vectorized counting with NaN propagation -/

theorem count_business_days_nil_left (ends : List (Option Nat)) :
    count_business_days [] ends = [] := by
  simp [count_business_days, applyMask, scatterCounts]

theorem count_business_days_cons (s e : Option Nat)
    (ss es : List (Option Nat)) :
    count_business_days (s :: ss) (e :: es) =
      omap2 busday_count s e :: count_business_days ss es := by
  cases s <;> cases e <;>
    simp [count_business_days, applyMask, scatterCounts, omap2, List.zip]

/-- C7.  `count_business_days` on batch input never raises: at every
position where either endpoint is null the output is NaN (`none`), and at
every position with both endpoints present the output is the business-day
count from start (inclusive) to end (exclusive). -/
theorem count_business_days_handles_nulls
    (start ends : List (Option Nat)) (i : Nat) (s e : Option Nat)
    (hs : start.get? i = some s) (he : ends.get? i = some e) :
    ((s = none ∨ e = none) →
        (count_business_days start ends).get? i = some none) ∧
      (∀ a b : Nat, s = some a → e = some b →
        (count_business_days start ends).get? i =
          some (some (busday_count a b))) := by
  induction start generalizing ends i with
  | nil => simp at hs
  | cons s0 ss ih =>
    cases ends with
    | nil => simp at he
    | cons e0 es =>
      cases i with
      | zero =>
        have hs' : s0 = s := by simpa using hs
        have he' : e0 = e := by simpa using he
        refine ⟨fun h => ?_, fun a b ha hb => ?_⟩
        · rw [count_business_days_cons]
          have hnone : omap2 busday_count s0 e0 = none := by
            rcases h with h | h
            · rw [hs', h]; rfl
            · rw [he', h]; cases s0 <;> rfl
          simp [hnone]
        · rw [count_business_days_cons, hs', ha, he', hb]
          rfl
      | succ i =>
        rw [count_business_days_cons]
        simp only [List.get?] at hs he
        exact ih es i hs he

/-- Witness for C7: a batch with a null start in position 1 and full pairs
in positions 0 and 2. -/
theorem count_business_days_handles_nulls_witness :
    ((count_business_days
        [some (dateToNum 2016 1 15), none, some (dateToNum 2016 1 15)]
        [some (dateToNum 2016 1 20), some (dateToNum 2016 1 22), some (dateToNum 2016 2 17)]).get? 1 =
      some none) ∧
    ((count_business_days
        [some (dateToNum 2016 1 15), none, some (dateToNum 2016 1 15)]
        [some (dateToNum 2016 1 20), some (dateToNum 2016 1 22), some (dateToNum 2016 2 17)]).get? 0 =
      some (some (busday_count (dateToNum 2016 1 15) (dateToNum 2016 1 20)))) :=
  ⟨(count_business_days_handles_nulls _ _ 1 none (some (dateToNum 2016 1 22))
      (by decide) (by decide)).1 (Or.inl rfl),
   (count_business_days_handles_nulls _ _ 0 (some (dateToNum 2016 1 15))
      (some (dateToNum 2016 1 20)) (by decide) (by decide)).2 _ _ rfl rfl⟩

/-! ## Builder decomposition helpers -/

theorem headD_mem {α : Type} (l : List α) (d : α) (h : l ≠ []) :
    l.headD d ∈ l := by
  cases l with
  | nil => exact absurd rfl h
  | cons x xs => exact List.mem_cons_self x xs

theorem build_mem_shape (df : List ContractRow) (row : ContRow)
    (h : row ∈ build_continuous_vx_dataframe df) :
    ∃ d m0, d ∈ timeframe df ∧ vx_pm df d = some m0 ∧ row = mkRow df d m0 := by
  unfold build_continuous_vx_dataframe at h
  rw [List.mem_filterMap] at h
  obtain ⟨d, hd, hmatch⟩ := h
  cases hpm : vx_pm df d with
  | none => rw [hpm] at hmatch; simp at hmatch
  | some m0 =>
    rw [hpm] at hmatch
    simp only [Option.some.injEq] at hmatch
    exact ⟨d, m0, hd, hpm, hmatch.symm⟩

theorem uniqueFirst_go_mem (x : Nat) :
    ∀ (l seen : List Nat), x ∈ uniqueFirst.go seen l ↔ x ∈ l ∧ x ∉ seen := by
  intro l
  induction l with
  | nil => intro seen; simp [uniqueFirst.go]
  | cons d rest ih =>
    intro seen
    unfold uniqueFirst.go
    by_cases hd : d ∈ seen
    · rw [if_pos hd, ih seen]
      constructor
      · exact fun ⟨h1, h2⟩ => ⟨List.mem_cons_of_mem d h1, h2⟩
      · rintro ⟨h1, h2⟩
        rcases List.mem_cons.mp h1 with rfl | h1
        · exact absurd hd h2
        · exact ⟨h1, h2⟩
    · rw [if_neg hd]
      simp only [List.mem_cons, ih (d :: seen)]
      constructor
      · rintro (rfl | ⟨h1, h2⟩)
        · exact ⟨Or.inl rfl, hd⟩
        · exact ⟨Or.inr h1, fun hx => h2 (Or.inr hx)⟩
      · rintro ⟨rfl | h1, h2⟩
        · exact Or.inl rfl
        · by_cases hxd : x = d
          · exact Or.inl hxd
          · exact Or.inr ⟨h1, by simp [hxd, h2]⟩

theorem mem_timeframe (df : List ContractRow) (d : Nat) :
    d ∈ timeframe df ↔ ∃ r ∈ df, r.tradeDate = d := by
  unfold timeframe uniqueFirst
  rw [uniqueFirst_go_mem]
  simp

theorem mem_of_getLast? {l : List Nat} {a : Nat} (h : l.getLast? = some a) :
    a ∈ l := by
  induction l with
  | nil => simp at h
  | cons x xs ih =>
    cases xs with
    | nil => simp_all
    | cons y ys =>
      rw [List.getLast?_cons_cons] at h
      exact List.mem_cons_of_mem x (ih h)

theorem groupNth_zero_some (df : List ContractRow) (d : Nat)
    (hd : d ∈ timeframe df) :
    ∃ r1, groupNth df d 0 = some r1 ∧ r1 ∈ df ∧ r1.tradeDate = d := by
  obtain ⟨r, hr, hrd⟩ := (mem_timeframe df d).mp hd
  have hne : df.filter (fun r => decide (r.tradeDate = d)) ≠ [] := by
    intro hnil
    have : r ∈ df.filter (fun r => decide (r.tradeDate = d)) :=
      List.mem_filter.mpr ⟨hr, by simp [hrd]⟩
    simp [hnil] at this
  cases hf : df.filter (fun r => decide (r.tradeDate = d)) with
  | nil => exact absurd hf hne
  | cons r1 rest =>
    refine ⟨r1, by simp [groupNth, hf], ?_, ?_⟩
    · have : r1 ∈ df.filter (fun r => decide (r.tradeDate = d)) := by
        rw [hf]; exact List.mem_cons_self r1 rest
      exact (List.mem_filter.mp this).1
    · have : r1 ∈ df.filter (fun r => decide (r.tradeDate = d)) := by
        rw [hf]; exact List.mem_cons_self r1 rest
      simpa using (List.mem_filter.mp this).2

/-! ## C2: the constant-maturity formulas -/

/-- C2.  On every continuous row whose inputs are present, the short-term
value is `w1*month1_settle + w2*month2_settle` with
`w1 = days_till_rollover / roll_period` and `w2 = 1 - w1`, and the
mid-term value is `w4*month4 + (1/3)*month5 + (1/3)*month6 + w7*month7`
with `w4 = (days_till_rollover / roll_period) / 3` and `w7 = 1/3 - w4`. -/
theorem continuous_row_formulas (df : List ContractRow) (row : ContRow)
    (hrow : row ∈ build_continuous_vx_dataframe df)
    (dtr rp : Int) (s1 s2 s4 s5 s6 s7 : ℚ)
    (hdtr : row.daysTillRollover = some dtr)
    (hrp : row.rollPeriod = some rp)
    (h1 : row.month1Settle = some s1)
    (h2 : row.month2Settle = some s2)
    (h4 : row.month4Settle = some s4)
    (h5 : row.month5Settle = some s5)
    (h6 : row.month6Settle = some s6)
    (h7 : row.month7Settle = some s7) :
    row.STCMVF = some (((dtr : ℚ) / (rp : ℚ)) * s1 +
        (1 - (dtr : ℚ) / (rp : ℚ)) * s2) ∧
      row.MTCMVF = some ((((dtr : ℚ) / (rp : ℚ)) / 3) * s4 +
        1 / 3 * s5 + 1 / 3 * s6 +
        (1 / 3 - ((dtr : ℚ) / (rp : ℚ)) / 3) * s7) := by
  obtain ⟨d, m0, -, -, rfl⟩ := build_mem_shape df row hrow
  simp only [mkRow] at hdtr hrp h1 h2 h4 h5 h6 h7 ⊢
  rw [Option.map_eq_some'] at h1 h2 h4 h5 h6 h7
  obtain ⟨r1, hr1, hs1⟩ := h1
  obtain ⟨r2, hr2, hs2⟩ := h2
  obtain ⟨r4, hr4, hs4⟩ := h4
  obtain ⟨r5, hr5, hs5⟩ := h5
  obtain ⟨r6, hr6, hs6⟩ := h6
  obtain ⟨r7, hr7, hs7⟩ := h7
  rw [hr1] at hdtr hrp
  simp only [Option.map_some', Option.some.injEq] at hdtr hrp
  simp [hr1, hr2, hr4, hr5, hr6, hr7, omap2, hdtr, hrp, hs1, hs2, hs4, hs5, hs6, hs7]

/-- Witness for C2 on the 2016-01-15 snapshot row: `days_till_rollover`
is 1 and `roll_period` 22, and both constant-maturity outputs equal the
documented weight formulas on the published settles. -/
theorem continuous_row_formulas_witness :
    ((build_continuous_vx_dataframe exDf16).headD dummyRow).STCMVF =
        some ((((1 : Int) : ℚ) / ((22 : Int) : ℚ)) * 26.475 +
          (1 - ((1 : Int) : ℚ) / ((22 : Int) : ℚ)) * 24.350) ∧
      ((build_continuous_vx_dataframe exDf16).headD dummyRow).MTCMVF =
        some (((((1 : Int) : ℚ) / ((22 : Int) : ℚ)) / 3) * 23.350 +
          1 / 3 * 23.075 + 1 / 3 * 23.025 +
          (1 / 3 - (((1 : Int) : ℚ) / ((22 : Int) : ℚ)) / 3) * 23.125) :=
  continuous_row_formulas exDf16
    ((build_continuous_vx_dataframe exDf16).headD dummyRow)
    (headD_mem _ _ (by with_unfolding_all decide)) 1 22 26.475 24.350 23.350 23.075 23.025 23.125
    (by with_unfolding_all decide) (by with_unfolding_all decide)
    (by with_unfolding_all decide) (by with_unfolding_all decide)
    (by with_unfolding_all decide) (by with_unfolding_all decide)
    (by with_unfolding_all decide) (by with_unfolding_all decide)

/-! ## C3: the front month is the nearest forward contract -/

theorem foldl_min_of_le (a : Nat) :
    ∀ l : List Nat, (∀ x ∈ l, a ≤ x) → l.foldl min a = a := by
  intro l
  induction l generalizing a with
  | nil => intro _; rfl
  | cons x xs ih =>
    intro h
    have hax : min a x = a := Nat.min_eq_left (h x (List.mem_cons_self x xs))
    simp only [List.foldl_cons, hax]
    exact ih a (fun y hy => h y (List.mem_cons_of_mem x hy))

theorem min?_cons_of_le (a : Nat) (l : List Nat) (h : ∀ x ∈ l, a ≤ x) :
    (a :: l).min? = some a := by
  rw [List.min?_cons', foldl_min_of_le a l h]

theorem chainToDf_cons (c : Contract) (rest : List Contract) :
    chainToDf (c :: rest) =
      c.bars.map (fun b => ⟨b.1, c.expiration, b.2⟩) ++ chainToDf rest := by
  simp [chainToDf]

/-- The first row of the merged dataframe at day `d` carries the smallest
chain expiration strictly beyond `d`, provided the chain is sorted, bars
precede their expiration, and every live contract has a bar at `d`. -/
theorem head_filter_chain (d : Nat) :
    ∀ chain : List Contract,
      List.Pairwise (fun a b : Contract => a.expiration < b.expiration) chain →
      (∀ c ∈ chain, ∀ b ∈ c.bars, b.1 < c.expiration) →
      (∀ c ∈ chain, d < c.expiration → ∃ p ∈ c.bars, p.1 = d) →
      ((chainToDf chain).filter (fun r => decide (r.tradeDate = d))).head?.map
          (·.expirationDate) =
        nearestForwardExp chain d := by
  intro chain
  induction chain with
  | nil => intro _ _ _; simp [chainToDf, nearestForwardExp]
  | cons c rest ih =>
    intro hsorted hbars hcov
    rw [chainToDf_cons, List.filter_append]
    by_cases hd : d < c.expiration
    · -- the head contract is live: it supplies the front-month row
      obtain ⟨p, hp, hpd⟩ := hcov c (List.mem_cons_self c rest) hd
      have hmem : (⟨d, c.expiration, p.2⟩ : ContractRow) ∈
          (c.bars.map (fun b => (⟨b.1, c.expiration, b.2⟩ : ContractRow))).filter
            (fun r => decide (r.tradeDate = d)) := by
        refine List.mem_filter.mpr ⟨?_, by simp⟩
        exact List.mem_map.mpr ⟨p, hp, by simp [hpd]⟩
      have hexp : ∀ r ∈ (c.bars.map (fun b => (⟨b.1, c.expiration, b.2⟩ : ContractRow))).filter
          (fun r => decide (r.tradeDate = d)), r.expirationDate = c.expiration := by
        intro r hr
        obtain ⟨b, -, hb⟩ := List.mem_map.mp (List.mem_filter.mp hr).1
        rw [← hb]
      cases hf : (c.bars.map (fun b => (⟨b.1, c.expiration, b.2⟩ : ContractRow))).filter
          (fun r => decide (r.tradeDate = d)) with
      | nil => rw [hf] at hmem; simp at hmem
      | cons r0 rs =>
        have hr0 : r0.expirationDate = c.expiration :=
          hexp r0 (by rw [hf]; exact List.mem_cons_self r0 rs)
        rw [List.cons_append, List.head?_cons, Option.map_some', hr0]
        unfold nearestForwardExp
        rw [List.map_cons, List.filter_cons_of_pos (by simpa using hd)]
        rw [min?_cons_of_le]
        intro x hx
        rw [List.mem_filter] at hx
        obtain ⟨hx1, -⟩ := hx
        obtain ⟨c', hc', rfl⟩ := List.mem_map.mp hx1
        exact le_of_lt ((List.pairwise_cons.mp hsorted).1 c' hc')
    · -- the head contract has expired at `d`: its block contributes nothing
      have hempty : (c.bars.map (fun b => (⟨b.1, c.expiration, b.2⟩ : ContractRow))).filter
          (fun r => decide (r.tradeDate = d)) = [] := by
        rw [List.filter_eq_nil_iff]
        intro r hr
        obtain ⟨b, hb, rfl⟩ := List.mem_map.mp hr
        have := hbars c (List.mem_cons_self c rest) b hb
        simp only [decide_eq_true_eq]
        omega
      rw [hempty, List.nil_append]
      unfold nearestForwardExp
      rw [List.map_cons, List.filter_cons_of_neg (by simpa using hd)]
      exact ih (List.pairwise_cons.mp hsorted).2
        (fun c' hc' => hbars c' (List.mem_cons_of_mem c hc'))
        (fun c' hc' => hcov c' (List.mem_cons_of_mem c hc'))

theorem get?_zero_eq_head? {α : Type} (l : List α) : l.get? 0 = l.head? := by
  cases l <;> rfl

/-- C3.  On every row built from a sorted, fully covering contract chain
with valid bars, the stored front-month expiration is the smallest
expiration in the chain strictly after the row's trade date — re-deriving
`month1_expiration` from the chain reproduces the stored value. -/
theorem month1_is_nearest_forward (chain : List Contract) (row : ContRow)
    (hsorted : List.Pairwise (fun a b : Contract => a.expiration < b.expiration) chain)
    (hbars : ∀ c ∈ chain, ∀ b ∈ c.bars, b.1 < c.expiration)
    (hcov : ∀ c ∈ chain, ∀ d ∈ timeframe (chainToDf chain),
      d < c.expiration → ∃ p ∈ c.bars, p.1 = d)
    (hrow : row ∈ build_continuous_vx_dataframe (chainToDf chain)) :
    row.month1Exp = nearestForwardExp chain row.tradeDate := by
  obtain ⟨d, m0, hdtf, -, rfl⟩ := build_mem_shape _ row hrow
  have htd : (mkRow (chainToDf chain) d m0).tradeDate = d := rfl
  rw [htd]
  have hm1 : (mkRow (chainToDf chain) d m0).month1Exp =
      ((chainToDf chain).filter (fun r => decide (r.tradeDate = d))).head?.map
        (·.expirationDate) := by
    simp only [mkRow, groupNth, get?_zero_eq_head?]
  rw [hm1]
  exact head_filter_chain d chain hsorted hbars
    (fun c hc => hcov c hc d hdtf)

/-- Witness for C3 on the two-contract chain: the first built row (trade
date 2016-01-15) stores the January expiration, which is also the nearest
forward expiration of the chain on that day. -/
theorem month1_is_nearest_forward_witness :
    ((build_continuous_vx_dataframe (chainToDf exChain)).headD dummyRow).month1Exp =
      nearestForwardExp exChain
        ((build_continuous_vx_dataframe (chainToDf exChain)).headD dummyRow).tradeDate :=
  month1_is_nearest_forward exChain
    ((build_continuous_vx_dataframe (chainToDf exChain)).headD dummyRow)
    (by decide) (by decide) (by with_unfolding_all decide)
    (headD_mem _ _ (by with_unfolding_all decide))

/-! ## C4: dropped rows and absence of division by zero -/

/-- C4.  When every dataframe row trades strictly before its expiration
and every entry of the expiration series is a business day (both hold for
the real pipeline's inputs), the builder (a) emits no row for a trading
day without a resolvable prior-month expiration, and (b) gives every
emitted row a strictly positive `roll_period`, so the weight division
`days_till_rollover / roll_period` is never a division by zero and the
short-term weight of every emitted row is a definite value. -/
theorem builder_drops_unresolved_and_roll_positive (df : List ContractRow)
    (hbars : ∀ r ∈ df, r.tradeDate < r.expirationDate)
    (hexp : ∀ e ∈ expdatesUsed df, is_business_day e = true) :
    (∀ d ∈ timeframe df, vx_pm df d = none →
        ∀ row ∈ build_continuous_vx_dataframe df, row.tradeDate ≠ d) ∧
      (∀ row ∈ build_continuous_vx_dataframe df,
        ∃ rp : Int, row.rollPeriod = some rp ∧ 0 < rp ∧
          row.stW1.isSome = true) := by
  constructor
  · intro d _ hnone row hrow heq
    obtain ⟨d', m0, -, hpm, rfl⟩ := build_mem_shape df row hrow
    have htd : (mkRow df d' m0).tradeDate = d' := rfl
    rw [htd] at heq
    subst heq
    rw [hnone] at hpm
    exact Option.noConfusion hpm
  · intro row hrow
    obtain ⟨d, m0, hdtf, hpm, rfl⟩ := build_mem_shape df row hrow
    unfold vx_pm at hpm
    have hm0mem := mem_of_getLast? hpm
    rw [List.mem_filter] at hm0mem
    obtain ⟨hm0e, hm0le⟩ := hm0mem
    have hm0le' : m0 ≤ d := by simpa using hm0le
    have hm0b : is_business_day m0 = true := hexp m0 hm0e
    obtain ⟨r1, hr1, hr1df, hr1d⟩ := groupNth_zero_some df d hdtf
    have hde : d < r1.expirationDate := hr1d ▸ hbars r1 hr1df
    have hcount : 0 < countBDfrom m0 (r1.expirationDate - m0) :=
      countBDfrom_pos m0 _ (by omega) hm0b
    refine ⟨busday_count m0 r1.expirationDate, ?_, ?_, ?_⟩
    · simp [mkRow, hr1]
    · unfold busday_count
      rw [if_pos (by omega)]
      exact_mod_cast hcount
    · simp [mkRow, hr1, omap2]

/-- Witness for C4 on the 2016-01-19 dataframe: its single emitted row has
roll period 22 > 0 and a definite short-term weight. -/
theorem builder_roll_positive_witness :
    ∃ rp : Int,
      ((build_continuous_vx_dataframe exDfLastDay).headD dummyRow).rollPeriod =
          some rp ∧ 0 < rp ∧
        ((build_continuous_vx_dataframe exDfLastDay).headD dummyRow).stW1.isSome = true :=
  (builder_drops_unresolved_and_roll_positive exDfLastDay (by decide)
      (by decide)).2
    ((build_continuous_vx_dataframe exDfLastDay).headD dummyRow)
    (headD_mem _ _ (by with_unfolding_all decide))

/-! ## C8: daily-settlement snapshot parsing -/

/-- C8 counterexample.  A board with exactly two monthly rows (front and
back month present) still makes `fetch_vx_daily_settlement` fail: the
parser unconditionally indexes the 4th..7th monthly rows, so two monthly
rows are not sufficient for success, refuting "succeeds whenever at least
2 monthly rows are present". -/
theorem fetch_vx_daily_settlement_two_rows_fail :
    (monthlyRows exBoard2).length = 2 ∧
      fetch_vx_daily_settlement exBoard2 (dateToNum 2016 1 15) =
        Except.error () := by
  constructor
  · rfl
  · rfl

/-- C8 amended.  The parser fails exactly when fewer than 7 monthly rows
are on the board (months 1..7 are all mandatory); with at least 7 it
returns the monthly rows with the already-expired ones removed, in board
order — ascending by expiration whenever the board lists them
ascending. -/
theorem fetch_vx_daily_settlement_spec (board : List BoardRow) (lp : Nat) :
    (fetch_vx_daily_settlement board lp = Except.error () ↔
        (monthlyRows board).length < 7) ∧
      (7 ≤ (monthlyRows board).length →
        fetch_vx_daily_settlement board lp =
          Except.ok ((monthlyRows board).filter
            (fun r => decide (lp < r.expiration)))) ∧
      (List.Pairwise (fun a b : BoardRow => a.expiration ≤ b.expiration)
          (monthlyRows board) →
        List.Pairwise (fun a b : BoardRow => a.expiration ≤ b.expiration)
          ((monthlyRows board).filter (fun r => decide (lp < r.expiration)))) := by
  refine ⟨?_, fun h7 => ?_, fun hsort => hsort.filter _⟩
  · unfold fetch_vx_daily_settlement
    by_cases h : (monthlyRows board).length < 7 <;> simp [h]
  · unfold fetch_vx_daily_settlement
    rw [if_neg (by omega)]

/-- Witness for C8 amended: the seven-monthly-row board parses to its
monthly rows, none of which has expired. -/
theorem fetch_vx_daily_settlement_spec_witness :
    fetch_vx_daily_settlement exBoard7 (dateToNum 2016 1 15) =
      Except.ok ((monthlyRows exBoard7).filter
        (fun r => decide (dateToNum 2016 1 15 < r.expiration))) :=
  (fetch_vx_daily_settlement_spec exBoard7 (dateToNum 2016 1 15)).2.1 (by decide)

/-! ## C9: rollover boundary behaviour of the short-term weights -/

/-- C9 counterexample.  On 2016-01-20 (the day the January contract
expires) the row has `days_till_rollover = roll_period - 1`, yet the
weights are `w1 = 18/19` and `w2 = 1/19`: the weight does not shift to the
back month on such a row.  (`days_till_rollover = 0` is the last trading
day before expiration instead.) -/
theorem rollover_boundary_counterexample :
    ((build_continuous_vx_dataframe exDfC9).get? 1).map
        (fun r => (r.daysTillRollover, r.rollPeriod, r.stW1, r.stW2)) =
      some (some 18, some 19, some ((18 : ℚ)/19), some ((1 : ℚ)/19)) ∧
      (18 : Int) = 19 - 1 ∧
      ¬((18 : ℚ)/19 = 0 ∧ (1 : ℚ)/19 = 1) := by
  refine ⟨by with_unfolding_all decide, by decide, by with_unfolding_all decide⟩

/-- C9 amended.  A row whose `days_till_rollover` is `0` (the last trading
day before the front-month expiration) carries short-term weights
`w1 = 0` and `w2 = 1`: the full weight is on the back-month contract. -/
theorem rollover_boundary_weights (df : List ContractRow) (row : ContRow)
    (hrow : row ∈ build_continuous_vx_dataframe df)
    (h0 : row.daysTillRollover = some 0) :
    row.stW1 = some 0 ∧ row.stW2 = some 1 := by
  unfold build_continuous_vx_dataframe at hrow
  rw [List.mem_filterMap] at hrow
  obtain ⟨d, -, hd⟩ := hrow
  cases hpm : vx_pm df d with
  | none => rw [hpm] at hd; simp at hd
  | some m0 =>
    rw [hpm] at hd
    simp only [Option.some.injEq] at hd
    subst hd
    have h0' : ∃ a, groupNth df d 0 = some a ∧
        busday_count d a.expirationDate - 1 = 0 := by
      simpa [mkRow, omap2] using h0
    obtain ⟨r1, h1, hz⟩ := h0'
    constructor <;> simp [mkRow, omap2, h1, hz]

/-- Witness for C9 amended: on 2016-01-19, the last trading day before the
January expiration, the weights are exactly 0 and 1. -/
theorem rollover_boundary_weights_witness :
    ((build_continuous_vx_dataframe exDfLastDay).headD dummyRow).stW1 = some 0 ∧
      ((build_continuous_vx_dataframe exDfLastDay).headD dummyRow).stW2 = some 1 :=
  rollover_boundary_weights exDfLastDay
    ((build_continuous_vx_dataframe exDfLastDay).headD dummyRow)
    (headD_mem _ _ (by with_unfolding_all decide)) (by with_unfolding_all decide)

end CboeVx
